import Mathlib

/-!
Verification development for the v4 M-Pesa payment-intent core
(`chat_agent.py` + `mpesa_tool.py`): a shallow embedding of the
confirmation-gating protocol, the Till-payment tool, the transaction-status
tool and the per-user session store, together with theorems about the
behaviour of these operations.

Conventions of the embedding:
- Python strings are modelled as `String` / `List Char`; `str.lower()` is
  `lowerL`, substring membership (`in`) is `containsSub`, `startswith` is
  `startsL`.
- JSON payloads exchanged with the gateway are modelled by `JVal` /
  `JDict` / `JResponse` (the code only ever inspects flat string/number
  fields of dict-shaped responses, or bails out on non-dict responses).
- The external M-Pesa client (`mpesa_integration.MpesaClient`) and the
  external LLM agent executor are modelled as behaviours supplied by the
  environment: `ClientBehavior` gives the outcome of each of the up to
  three `initiate_payment` call attempts, `ExecBehavior` gives the tool
  calls performed during `agent_executor.invoke` and its final outcome.
  Either may raise, modelled with `Except String`.
- Gateway interactions are made observable: every `initiate_payment`
  attempt is recorded as a `Call`.
-/

set_option maxRecDepth 4000

/-- `startsL hay pre` models Python `hay.startswith(pre)` on char lists. -/
def startsL : List Char → List Char → Bool
  | _, [] => true
  | [], _ :: _ => false
  | a :: as, b :: bs => a = b && startsL as bs

/-- `containsSub hay need` models Python `need in hay` (substring test). -/
def containsSub : List Char → List Char → Bool
  | [], need => startsL [] need
  | h :: t, need => startsL (h :: t) need || containsSub t need

/-- Models Python `s.lower()` (ASCII case folding suffices here). -/
def lowerL (s : List Char) : List Char := s.map Char.toLower

/-- `endsL hay suf` models Python `hay.endswith(suf)`. -/
def endsL (hay suf : List Char) : Bool := startsL hay.reverse suf.reverse

/-- Phone formatting of `MpesaTillTool._run` (mpesa_tool.py lines 174-177):
strip a leading `+`, then replace a leading `0` by `254`.  Nothing else is
changed and no input is ever rejected. -/
def formatPhoneL (p : List Char) : List Char :=
  let p1 := if p.head? = some '+' then p.tail else p
  if p1.head? = some '0' then '2' :: '5' :: '4' :: p1.tail else p1

/-- Flat JSON values appearing in gateway responses. -/
inductive JVal
  | str (s : String)
  | num (n : Int)
  | null
  deriving DecidableEq

/-- A dict-shaped JSON object (Python dict keys are unique). -/
abbrev JDict := List (String × JVal)

/-- A gateway initiation response: either a dict or some non-dict value
(the code only distinguishes these two shapes via `isinstance(response, dict)`). -/
inductive JResponse
  | dict (fields : JDict)
  | other
  deriving DecidableEq

/-- Models Python `d.get(k)` / `k in d` on a dict. -/
def jget : JDict → String → Option JVal
  | [], _ => none
  | (k, v) :: t, q => if k = q then some v else jget t q

/-- `key.lower().endswith('code')` from the response scan in
`MpesaTillTool._run` (mpesa_tool.py line 252). -/
def endsCodeKey (k : String) : Bool := endsL (lowerL k.toList) ("code".toList)

/-- `response[key] == "0" or response[key] == 0` from the same scan. -/
def isZero : JVal → Bool
  | .str s => decide (s = "0")
  | .num n => decide (n = 0)
  | .null => false

/-- First value among the candidate error-description keys
(`mpesa_tool.py` lines 275-278). -/
def firstOf (f : JDict) : List String → Option JVal
  | [] => none
  | k :: t => match jget f k with
    | some v => some v
    | none => firstOf f t

/-- Error detail extracted for a failed initiation (mpesa_tool.py lines 273-278). -/
def errDetail : JResponse → Option JVal
  | .dict f => firstOf f ["ResponseDescription", "errorMessage", "message", "detail"]
  | .other => none

/-- Success/checkout-id normalization of the initiation response,
`MpesaTillTool._run` lines 234-260: the `ResponseCode == "0"` branch, the
`errorCode == "0"` branch, then the generic scan for any key whose lowered
name ends in `code` with a zero value (string `"0"` or number `0`), taking
the first key containing `id` as the checkout id. -/
def parseInit : JResponse → Bool × Option JVal
  | .other => (false, none)
  | .dict f =>
    if jget f "ResponseCode" = some (.str "0") then (true, jget f "CheckoutRequestID")
    else if jget f "errorCode" = some (.str "0") then (true, jget f "requestId")
    else match f.find? (fun p => endsCodeKey p.1 && isZero p.2) with
      | some _ =>
        (true, (f.find? (fun p => containsSub (lowerL p.1.toList) ("id".toList))).map Prod.snd)
      | none => (false, none)

/-- A recorded gateway `initiate_payment` attempt: the phone and amount sent. -/
structure Call where
  phone : List Char
  amount : Int
  deriving DecidableEq

/-- Behaviour of the external M-Pesa client for one tool invocation: the
outcome of each of the three fallback `initiate_payment` call shapes tried
by `MpesaTillTool._run` (lines 196-230); each may return a response or raise. -/
structure ClientBehavior where
  std : Except String JResponse
  simple : Except String JResponse
  alt : Except String JResponse

/-- The triple-fallback call sequence of `MpesaTillTool._run` lines 196-230:
try the standard call; on exception try the simplified call; then the
alternative parameter names; if all fail, re-raise the first exception.
Every attempt is recorded as a gateway call. -/
def tryInitiate (phone : List Char) (amt : Int) (cb : ClientBehavior) :
    List Call × Except String JResponse :=
  match cb.std with
  | .ok r => ([⟨phone, amt⟩], .ok r)
  | .error e1 =>
    match cb.simple with
    | .ok r => ([⟨phone, amt⟩, ⟨phone, amt⟩], .ok r)
    | .error _ =>
      match cb.alt with
      | .ok r => ([⟨phone, amt⟩, ⟨phone, amt⟩, ⟨phone, amt⟩], .ok r)
      | .error _ => ([⟨phone, amt⟩, ⟨phone, amt⟩, ⟨phone, amt⟩], .error e1)

/-- The kind of `message` string placed in the dict returned by
`MpesaTillTool._run`. -/
inductive RunMsg
  | paymentInitiated
  | initFailed (detail : Option JVal)
  | errorInitiating (e : String)
  deriving DecidableEq

/-- The dict returned by `MpesaTillTool._run`. -/
structure RunOut where
  success : Bool
  message : RunMsg
  checkout : Option JVal
  deriving DecidableEq

/-- The result built from a successfully obtained response
(`MpesaTillTool._run` lines 262-285). -/
def outcomeOf (r : JResponse) : RunOut :=
  let pr := parseInit r
  if pr.1 then ⟨true, .paymentInitiated, pr.2⟩
  else ⟨false, .initFailed (errDetail r), none⟩

/-- The body of the `try` block of `MpesaTillTool._run` (lines 170-285):
format the phone, attempt the client calls, normalize the response.  An
uncaught client exception propagates (as `.error`). -/
def mpesaTillRunRaw (phone : List Char) (amt : Int) (cb : ClientBehavior) :
    List Call × Except String RunOut :=
  let fp := formatPhoneL phone
  match tryInitiate fp amt cb with
  | (calls, Except.ok r) => (calls, Except.ok (outcomeOf r))
  | (calls, Except.error e) => (calls, Except.error e)

/-- `MpesaTillTool._run` with its outer `except Exception` clause (lines
287-296): any exception becomes a returned failure dict. -/
def mpesaTillRun (phone : List Char) (amt : Int) (cb : ClientBehavior) :
    List Call × RunOut :=
  match mpesaTillRunRaw phone amt cb with
  | (calls, Except.ok out) => (calls, out)
  | (calls, Except.error e) => (calls, ⟨false, RunMsg.errorInitiating e, none⟩)

/-- What `MpesaTillTool._run` lets escape to its caller: the `try`/`except`
converts every exception into a returned value, so the result is always `ok`. -/
def mpesaTillRunX (phone : List Char) (amt : Int) (cb : ClientBehavior) :
    Except String (List Call × RunOut) :=
  match mpesaTillRunRaw phone amt cb with
  | (calls, Except.ok out) => Except.ok (calls, out)
  | (calls, Except.error e) => Except.ok (calls, ⟨false, RunMsg.errorInitiating e, none⟩)

/-! ## MpesaTransactionStatusTool (mpesa_tool.py lines 298-410) -/

/-- The parsed JSON parameters of a status query.  `transaction_id` /
`originator_conversation_id` are absent (`none`) or a string. -/
structure StatusParams where
  transaction_id : Option String
  originator_conversation_id : Option String
  deriving DecidableEq

/-- Python truthiness of an optional string (`not x` in the source). -/
def truthyS : Option String → Bool
  | none => false
  | some s => !s.isEmpty

/-- The outcome `MpesaTransactionStatusTool._run` returns (always a string
in the source; the constructors name the distinct returned strings).
`missingIds` is the returned string
`Error: Either transaction_id or originator_conversation_id must be provided.`
— this is the no-active-transaction outcome.  `caughtError` is the string
returned by the `except Exception` clause (a return, not a raise). -/
inductive StatusOut
  | invalidJsonInput
  | missingIds
  | initiatedOk (resp : JDict)
  | checkFailed (resp : JDict)
  | caughtError (e : String)
  deriving DecidableEq

/-- `MpesaTransactionStatusTool._run` (mpesa_tool.py lines 352-410).
`q = none` models a query string that fails `json.loads`.  The
construction of the status-request payload (initiator, credential, URLs —
lines 372-394) only feeds the client call and is elided; the client call
itself is the environment behaviour `cb`, which may raise (caught by the
`except` clause) or return a response dict. -/
def transactionStatusRun (q : Option StatusParams) (cb : Except String JDict) : StatusOut :=
  match q with
  | none => .invalidJsonInput
  | some p =>
    if !truthyS p.transaction_id && !truthyS p.originator_conversation_id then .missingIds
    else
      match cb with
      | .error e => .caughtError e
      | .ok resp =>
        if jget resp "ResponseCode" = some (.str "0") then .initiatedOk resp
        else .checkFailed resp

/-! ## ChatAgent (chat_agent.py) -/

/-- A per-user session dict as created in `ChatAgent.process_message`
(chat_agent.py lines 203-207). -/
structure Session where
  payment_confirmed : Bool
  phone_number : Option (List Char)
  pending_payment : Option Unit
  deriving DecidableEq

/-- The freshly initialized session (lines 203-207). -/
def defaultSession : Session := ⟨false, none, none⟩

/-- First-occurrence lookup in the `user_sessions` dict. -/
def sfind : List (String × Session) → String → Option Session
  | [], _ => none
  | (k, v) :: t, q => if k = q then some v else sfind t q

/-- Dict assignment `user_sessions[uid] = s` (replace or append). -/
def supd : List (String × Session) → String → Session → List (String × Session)
  | [], k, v => [(k, v)]
  | (k1, v1) :: t, k, v => if k1 = k then (k, v) :: t else (k1, v1) :: supd t k v

/-- Dict deletion `del user_sessions[uid]`. -/
def sdel : List (String × Session) → String → List (String × Session)
  | [], _ => []
  | (k1, v1) :: t, q => if k1 = q then t else (k1, v1) :: sdel t q

/-- The mutable state of a `ChatAgent`: the `user_sessions` dict.  (The
executor/memory caches carry no payment-relevant state.) -/
structure AgentState where
  user_sessions : List (String × Session)
  deriving DecidableEq

/-- `ChatAgent._is_payment_confirmation` (chat_agent.py lines 254-275):
case-insensitive substring match against the fixed phrase list. -/
def confirmationPhrases : List String :=
  ["confirm payment", "proceed with payment", "yes proceed",
   "go ahead", "pay now", "confirm", "proceed", "pay", "yes"]

/-- `ChatAgent._is_payment_confirmation` on the message text. -/
def isPaymentConfirmation (message : List Char) : Bool :=
  confirmationPhrases.any (fun p => containsSub (lowerL message) p.toList)

/-- The keyword list of `ChatAgent._check_and_block_payments` (line 248). -/
def paymentKeywords : List String :=
  ["proceed", "confirm", "pay", "yes", "authorize", "go ahead"]

/-- The keyword check of `ChatAgent._check_and_block_payments` (line 250):
`true` means the message is treated as authorizing the payment, so the
step's args are left alone. -/
def keywordAuthorized (message : List Char) : Bool :=
  paymentKeywords.any (fun k => containsSub (lowerL message) k.toList)

/-! ### Phone-number extraction (chat_agent.py lines 277-318) -/

/-- Try the regex alternation of the prefixes `254`, `+254`, `0` (in that
order, as in the source pattern) at the current position,
returning the remainder on a hit.  The three alternatives are mutually
exclusive on their first character, so no backtracking arises. -/
def stripKenyanPrefixAlt (l : List Char) : Option (List Char) :=
  if startsL l ("254".toList) then some (l.drop 3)
  else if startsL l ("+254".toList) then some (l.drop 4)
  else if startsL l ("0".toList) then some (l.drop 1)
  else none

/-- The capture group `[17]\d{8}`: a `1` or `7` followed by 8 digits. -/
def group9 : List Char → Option (List Char)
  | [] => none
  | c :: r =>
    if (c = '1' || c = '7') && ((r.take 8).length = 8 && (r.take 8).all Char.isDigit)
    then some (c :: r.take 8) else none

/-- One position of the regex scan: prefix alternation then capture group. -/
def matchKenyanAt (l : List Char) : Option (List Char) :=
  match stripKenyanPrefixAlt l with
  | some rest => group9 rest
  | none => none

/-- `re.findall(kenyan_phone_pattern, message)[0]`: the first capture group
found scanning left to right (lines 286-291). -/
def findPhone : List Char → Option (List Char)
  | [] => none
  | l@(_ :: t) =>
    match matchKenyanAt l with
    | some g => some g
    | none => findPhone t

/-- Post-processing of the regex capture before storing (lines 291-295). -/
def storePhoneFix (g : List Char) : List Char :=
  if startsL g ("0".toList) then "254".toList ++ g.drop 1
  else if !startsL g ("254".toList) then "254".toList ++ g
  else g

/-- Whitespace split, modelling Python `message.split()`. -/
def splitWsAux : List Char → List Char → List (List Char)
  | [], acc => if acc.isEmpty then [] else [acc.reverse]
  | c :: t, acc =>
    if c.isWhitespace then
      if acc.isEmpty then splitWsAux t [] else acc.reverse :: splitWsAux t []
    else splitWsAux t (c :: acc)

/-- Python `message.split()`. -/
def splitWs (l : List Char) : List (List Char) := splitWsAux l []

/-- The fallback scan of lines 301-318: the first whitespace-separated part
that `isdigit()` with length at least 9. -/
def fallbackPhonePart (parts : List (List Char)) : Option (List Char) :=
  parts.find? (fun p => !p.isEmpty && p.all Char.isDigit && decide (9 ≤ p.length))

/-- Post-processing of the fallback part before storing (lines 307-313). -/
def fallbackPhoneFix (p : List Char) : List Char :=
  if startsL p ("0".toList) then "254".toList ++ p.drop 1
  else if startsL p ("+254".toList) then p.drop 1
  else if !startsL p ("254".toList) then "254".toList ++ p
  else p

/-- `ChatAgent._extract_and_store_phone_number` (lines 277-318) reduced to
the phone it stores, if any: the regex path, else the phrase-triggered
fallback path. -/
def extractPhone (message : List Char) : Option (List Char) :=
  match findPhone message with
  | some g => some (storePhoneFix g)
  | none =>
    if containsSub (lowerL message) ("my phone number is".toList)
        || containsSub (lowerL message) ("use this number".toList) then
      (fallbackPhonePart (splitWs message)).map fallbackPhoneFix
    else none

/-! ### process_message (chat_agent.py lines 188-252) -/

/-- A tool call performed by the agent executor during `invoke`.  For a
`mpesa_till_payment` call, `phone`/`amount` are the args the agent chose and
`cb` is the client behaviour met by `MpesaTillTool._run` during that call.
`argsBlockedNote` records whether `_check_and_block_payments` later
overwrote the recorded `tool_call.args` with its error note (line 252) —
an after-the-fact annotation on an already executed step. -/
structure ToolCall where
  tool : String
  phone : List Char
  amount : Int
  cb : ClientBehavior
  argsBlockedNote : Bool

/-- Behaviour of `agent_executor.invoke` for one message: the tool calls it
executed (tools run during `invoke`, before any inspection) and its final
outcome — an output string, or an exception. -/
structure ExecBehavior where
  steps : List ToolCall
  outcome : Except String String

/-- Gateway calls produced by one executed step: a `mpesa_till_payment`
step runs `MpesaTillTool._run`, hence contacts the gateway. -/
def stepCalls (s : ToolCall) : List Call :=
  if s.tool = "mpesa_till_payment" then (mpesaTillRun s.phone s.amount s.cb).1 else []

/-- All gateway calls produced while the executor ran its steps. -/
def callsOfSteps : List ToolCall → List Call
  | [] => []
  | s :: t => stepCalls s ++ callsOfSteps t

/-- The tool results of the payment steps, in order. -/
def runsOfSteps : List ToolCall → List RunOut
  | [] => []
  | s :: t =>
    if s.tool = "mpesa_till_payment" then (mpesaTillRun s.phone s.amount s.cb).2 :: runsOfSteps t
    else runsOfSteps t

/-- `ChatAgent._check_and_block_payments` (lines 235-252): runs after
`invoke` returned; for each recorded `mpesa_till_payment` step, if the
original message contains no payment keyword, the step's `args` are
overwritten with an error note.  The steps were already executed, so this
rewrites the record only. -/
def checkAndBlockPayments (steps : List ToolCall) (message : List Char) : List ToolCall :=
  steps.map (fun s =>
    if s.tool = "mpesa_till_payment" && !keywordAuthorized message
    then ⟨s.tool, s.phone, s.amount, s.cb, true⟩ else s)

/-- Session initialization (lines 202-207): create the default session if absent. -/
def initSessionStep (m : List (String × Session)) (uid : String) : List (String × Session) :=
  match sfind m uid with
  | some _ => m
  | none => supd m uid defaultSession

/-- The confirmation branch (lines 210-213): set `payment_confirmed` when
the message is a confirmation and `pending_payment` is truthy. -/
def confirmStep (m : List (String × Session)) (message : List Char) (uid : String) :
    List (String × Session) :=
  if isPaymentConfirmation message
      && ((sfind m uid).getD defaultSession).pending_payment.isSome then
    supd m uid ⟨true, ((sfind m uid).getD defaultSession).phone_number,
                ((sfind m uid).getD defaultSession).pending_payment⟩
  else m

/-- The phone-extraction write (line 216 calling lines 277-318). -/
def phoneStep (m : List (String × Session)) (message : List Char) (uid : String) :
    List (String × Session) :=
  match extractPhone message with
  | some p => supd m uid ⟨((sfind m uid).getD defaultSession).payment_confirmed, some p,
                          ((sfind m uid).getD defaultSession).pending_payment⟩
  | none => m

/-- The session mutations of one `process_message` call, in source order. -/
def procState (st : AgentState) (message : List Char) (uid : String) : AgentState :=
  ⟨phoneStep (confirmStep (initSessionStep st.user_sessions uid) message uid) message uid⟩

/-- The apology returned by the `except` clause of `process_message` (line 233). -/
def apologyMsg : String :=
  "I\x27m sorry, I encountered an error while processing your request. Please try again later."

/-- The observable result of one `process_message` call. -/
structure ProcResult where
  state : AgentState
  output : String
  calls : List Call
  toolRuns : List RunOut
  steps : List ToolCall

/-- `ChatAgent.process_message` (lines 188-233): session init, confirmation
check, phone extraction, then the `try` block: `invoke` runs the tools
(producing the gateway calls), `_check_and_block_payments` rewrites the
recorded steps, and the agent output is returned; an exception from
`invoke` is caught and the apology string returned. -/
def processMessage (st : AgentState) (message : String) (uid : String) (eb : ExecBehavior) :
    ProcResult :=
  let st1 := procState st message.toList uid
  let calls := callsOfSteps eb.steps
  let runs := runsOfSteps eb.steps
  match eb.outcome with
  | Except.ok out => ⟨st1, out, calls, runs, checkAndBlockPayments eb.steps message.toList⟩
  | Except.error _ => ⟨st1, apologyMsg, calls, runs, eb.steps⟩

/-- What `process_message` lets escape to its caller: with the `except`
clause modelled, the result is always a returned value. -/
def processMessageX (st : AgentState) (message : String) (uid : String) (eb : ExecBehavior) :
    Except String ProcResult :=
  let st1 := procState st message.toList uid
  let calls := callsOfSteps eb.steps
  let runs := runsOfSteps eb.steps
  match eb.outcome with
  | Except.ok out => Except.ok ⟨st1, out, calls, runs, checkAndBlockPayments eb.steps message.toList⟩
  | Except.error _ => Except.ok ⟨st1, apologyMsg, calls, runs, eb.steps⟩

/-- `ChatAgent.clear_user_memory` (lines 320-335), session-store part. -/
def clearUserMemory (st : AgentState) (uid : String) : AgentState :=
  ⟨sdel st.user_sessions uid⟩

/-- An external event driving the agent. -/
inductive AgentEvent
  | msg (uid : String) (message : String) (eb : ExecBehavior)
  | clearMem (uid : String)

/-- One event step of the agent. -/
def stepState (st : AgentState) : AgentEvent → AgentState
  | .msg uid message eb => (processMessage st message uid eb).state
  | .clearMem uid => clearUserMemory st uid

/-- The agent state reached from a fresh `ChatAgent` after a sequence of events. -/
def runEvents (evs : List AgentEvent) : AgentState :=
  List.foldl stepState ⟨[]⟩ evs

/-! ## Auxiliary definitions used by the statements -/

/-- Whether an `Except` result is a normal return (no exception escaped). -/
def exOk {α : Type} : Except String α → Bool
  | Except.ok _ => true
  | Except.error _ => false

/-- All sessions in a store have `pending_payment = None` and
`payment_confirmed = False`. -/
def cleanSessions (m : List (String × Session)) : Prop :=
  ∀ p ∈ m, p.2.pending_payment = none ∧ p.2.payment_confirmed = false

/-- A gateway response accepting the request (`ResponseCode` zero). -/
def okResp : JDict := [("ResponseCode", JVal.str "0"), ("CheckoutRequestID", JVal.str "ws_CO_1")]

/-- A client that answers the first call attempt with `okResp`. -/
def okCb : ClientBehavior :=
  ⟨Except.ok (JResponse.dict okResp), Except.ok JResponse.other, Except.ok JResponse.other⟩

/-- A client that answers the first call attempt with a non-dict response. -/
def otherCb : ClientBehavior :=
  ⟨Except.ok JResponse.other, Except.ok JResponse.other, Except.ok JResponse.other⟩

/-- An executed `mpesa_till_payment` tool call with the given args, against
the accepting client. -/
def payToolCall (phone : String) (amt : Int) : ToolCall :=
  ⟨"mpesa_till_payment", phone.toList, amt, okCb, false⟩

/-- Scenario event: a user message carrying a phone number, no tool calls. -/
def phoneMsgEvent : AgentEvent :=
  AgentEvent.msg "u2" "use 0712345678" ⟨[], Except.ok "noted"⟩

/-! ## Helper lemmas -/

theorem jget_mem {f : JDict} {q : String} {v : JVal} (h : jget f q = some v) : (q, v) ∈ f := by
  induction f with
  | nil => simp [jget] at h
  | cons p t ih =>
    obtain ⟨k, w⟩ := p
    by_cases hk : k = q
    · subst hk
      simp [jget] at h
      subst h
      exact List.mem_cons_self _ _
    · simp [jget, hk] at h
      exact List.mem_cons_of_mem _ (ih h)

theorem sfind_mem {m : List (String × Session)} {q : String} {s : Session}
    (h : sfind m q = some s) : (q, s) ∈ m := by
  induction m with
  | nil => simp [sfind] at h
  | cons p t ih =>
    obtain ⟨k, w⟩ := p
    by_cases hk : k = q
    · subst hk
      simp [sfind] at h
      subst h
      exact List.mem_cons_self _ _
    · simp [sfind, hk] at h
      exact List.mem_cons_of_mem _ (ih h)

theorem mem_supd {m : List (String × Session)} {k : String} {v : Session} {p : String × Session}
    (h : p ∈ supd m k v) : p = (k, v) ∨ p ∈ m := by
  induction m with
  | nil =>
    simp [supd] at h
    exact Or.inl h
  | cons q t ih =>
    obtain ⟨k1, v1⟩ := q
    by_cases hk : k1 = k
    · simp [supd, hk] at h
      rcases h with h | h
      · exact Or.inl h
      · exact Or.inr (List.mem_cons_of_mem _ h)
    · simp [supd, hk] at h
      rcases h with h | h
      · exact Or.inr (by simp [h])
      · rcases ih h with h2 | h2
        · exact Or.inl h2
        · exact Or.inr (List.mem_cons_of_mem _ h2)

theorem mem_sdel {m : List (String × Session)} {q : String} {p : String × Session}
    (h : p ∈ sdel m q) : p ∈ m := by
  induction m with
  | nil => simp [sdel] at h
  | cons e t ih =>
    obtain ⟨k1, v1⟩ := e
    by_cases hk : k1 = q
    · simp [sdel, hk] at h
      exact List.mem_cons_of_mem _ h
    · simp [sdel, hk] at h
      rcases h with h | h
      · exact by simp [h]
      · exact List.mem_cons_of_mem _ (ih h)

theorem formatPhoneL_cons_zero (p : List Char) :
    formatPhoneL ('0' :: p) = '2' :: '5' :: '4' :: p := by
  simp [formatPhoneL]

theorem formatPhoneL_cons_plus {p : List Char} (h : p.head? ≠ some '+') :
    formatPhoneL ('+' :: p) = formatPhoneL p := by
  simp [formatPhoneL, h]

theorem formatPhoneL_no_prefix {p : List Char} (h1 : p.head? ≠ some '+')
    (h2 : p.head? ≠ some '0') : formatPhoneL p = p := by
  simp [formatPhoneL, h1, h2]

theorem outcomeOf_success (r : JResponse) : (outcomeOf r).success = (parseInit r).1 := by
  unfold outcomeOf
  cases h : (parseInit r).1 <;> simp [h]

theorem tryInitiate_std {phone : List Char} {amt : Int} {cb : ClientBehavior} {r : JResponse}
    (h : cb.std = Except.ok r) :
    tryInitiate phone amt cb = ([⟨phone, amt⟩], Except.ok r) := by
  unfold tryInitiate
  rw [h]

theorem mpesaTillRun_success_of_std {phone : List Char} {amt : Int} {cb : ClientBehavior}
    {r : JResponse} (h : cb.std = Except.ok r) :
    (mpesaTillRun phone amt cb).2.success = (parseInit r).1 := by
  unfold mpesaTillRun mpesaTillRunRaw
  simp only [tryInitiate_std h]
  exact outcomeOf_success r

theorem parseInit_dict_iff (f : JDict) :
    (parseInit (JResponse.dict f)).1 = true
      ↔ ∃ p ∈ f, (endsCodeKey p.1 && isZero p.2) = true := by
  have hred : parseInit (JResponse.dict f)
      = if jget f "ResponseCode" = some (JVal.str "0") then (true, jget f "CheckoutRequestID")
        else if jget f "errorCode" = some (JVal.str "0") then (true, jget f "requestId")
        else match f.find? (fun p => endsCodeKey p.1 && isZero p.2) with
          | some _ =>
            (true, (f.find? (fun p => containsSub (lowerL p.1.toList) ("id".toList))).map Prod.snd)
          | none => (false, none) := rfl
  rw [hred]
  by_cases h1 : jget f "ResponseCode" = some (JVal.str "0")
  · rw [if_pos h1]
    exact iff_of_true rfl ⟨("ResponseCode", JVal.str "0"), jget_mem h1, by decide⟩
  · rw [if_neg h1]
    by_cases h2 : jget f "errorCode" = some (JVal.str "0")
    · rw [if_pos h2]
      exact iff_of_true rfl ⟨("errorCode", JVal.str "0"), jget_mem h2, by decide⟩
    · rw [if_neg h2]
      cases hf : f.find? (fun p => endsCodeKey p.1 && isZero p.2) with
      | some p =>
        have hp := List.find?_some hf
        exact iff_of_true rfl ⟨p, List.mem_of_find?_eq_some hf, hp⟩
      | none =>
        refine iff_of_false (by simp) ?_
        rintro ⟨p, hmem, hp⟩
        exact (List.find?_eq_none.mp hf p hmem) hp

theorem cleanSessions_supd {m : List (String × Session)} {k : String} {s : Session}
    (hm : cleanSessions m) (h1 : s.pending_payment = none) (h2 : s.payment_confirmed = false) :
    cleanSessions (supd m k s) := by
  intro p hp
  rcases mem_supd hp with h | h
  · rw [h]
    exact ⟨h1, h2⟩
  · exact hm p h

theorem getD_pending_none {m : List (String × Session)} {uid : String}
    (hm : cleanSessions m) :
    ((sfind m uid).getD defaultSession).pending_payment = none := by
  cases h : sfind m uid with
  | some s => exact (hm (uid, s) (sfind_mem h)).1
  | none => rfl

theorem getD_confirmed_false {m : List (String × Session)} {uid : String}
    (hm : cleanSessions m) :
    ((sfind m uid).getD defaultSession).payment_confirmed = false := by
  cases h : sfind m uid with
  | some s => exact (hm (uid, s) (sfind_mem h)).2
  | none => rfl

theorem clean_initSessionStep {m : List (String × Session)} {uid : String}
    (hm : cleanSessions m) : cleanSessions (initSessionStep m uid) := by
  unfold initSessionStep
  cases h : sfind m uid with
  | some s => exact hm
  | none => exact cleanSessions_supd hm rfl rfl

theorem clean_confirmStep {m : List (String × Session)} {message : List Char} {uid : String}
    (hm : cleanSessions m) : cleanSessions (confirmStep m message uid) := by
  unfold confirmStep
  rw [getD_pending_none hm]
  simp only [Option.isSome_none, Bool.and_false]
  simpa using hm

theorem clean_phoneStep {m : List (String × Session)} {message : List Char} {uid : String}
    (hm : cleanSessions m) : cleanSessions (phoneStep m message uid) := by
  unfold phoneStep
  cases h : extractPhone message with
  | none => exact hm
  | some p => exact cleanSessions_supd hm (getD_pending_none hm) (getD_confirmed_false hm)

theorem clean_procState {st : AgentState} {message : List Char} {uid : String}
    (hm : cleanSessions st.user_sessions) :
    cleanSessions (procState st message uid).user_sessions := by
  unfold procState
  exact clean_phoneStep (clean_confirmStep (clean_initSessionStep hm))

theorem processMessage_state (st : AgentState) (message uid : String) (eb : ExecBehavior) :
    (processMessage st message uid eb).state = procState st message.toList uid := by
  rcases eb with ⟨steps, outc⟩
  cases outc <;> rfl

theorem clean_stepState {st : AgentState} (hm : cleanSessions st.user_sessions)
    (ev : AgentEvent) : cleanSessions (stepState st ev).user_sessions := by
  cases ev with
  | msg uid message eb =>
    show cleanSessions ((processMessage st message uid eb).state).user_sessions
    rw [processMessage_state]
    exact clean_procState hm
  | clearMem uid =>
    intro p hp
    exact hm p (mem_sdel hp)

theorem clean_foldl : ∀ (evs : List AgentEvent) (st : AgentState),
    cleanSessions st.user_sessions →
    cleanSessions (List.foldl stepState st evs).user_sessions := by
  intro evs
  induction evs with
  | nil => intro st h; simpa using h
  | cons e t ih =>
    intro st h
    rw [List.foldl_cons]
    exact ih _ (clean_stepState h e)

/-! ## Claim theorems -/

/-- C1: evaluation of the code at the failing input.  For the message
`show me the bundles` — which matches no confirmation phrase and no payment
keyword — an executor behaviour that invokes `mpesa_till_payment` still
produces a gateway call (the tool runs during `invoke`, before
`_check_and_block_payments` inspects anything), the agent output is
returned unchanged (no diagnostic message), and the only effect of the
keyword check is to rewrite the already-executed step's recorded args.
So the invocation is not blocked before the gateway, contrary to the claim. -/
theorem paymentBlockAfterGatewayCall :
    isPaymentConfirmation ("show me the bundles".toList) = false
    ∧ keywordAuthorized ("show me the bundles".toList) = false
    ∧ (processMessage ⟨[]⟩ "show me the bundles" "u4"
        ⟨[payToolCall "0712345678" 100], Except.ok "Here are the bundles"⟩).calls
      = [⟨"254712345678".toList, 100⟩]
    ∧ (processMessage ⟨[]⟩ "show me the bundles" "u4"
        ⟨[payToolCall "0712345678" 100], Except.ok "Here are the bundles"⟩).output
      = "Here are the bundles"
    ∧ (processMessage ⟨[]⟩ "show me the bundles" "u4"
        ⟨[payToolCall "0712345678" 100], Except.ok "Here are the bundles"⟩).steps.map
        (fun s => s.argsBlockedNote) = [true] := by
  decide

/-- C2: evaluation of the code at the failing input.  After a first message
storing a phone number, the session has `payment_confirmed = false` and no
status field exists at all; the message `yes` matches a confirmation phrase
but `pending_payment` is `None`, so `payment_confirmed` stays false — yet
invoking `mpesa_till_payment` issues the gateway call anyway, and the
session is completely unchanged afterwards (no `payment_pending`
transition, no flag reset).  The gateway call is thus issued without
`confirmed == true`, contrary to the claim. -/
theorem gatewayCallWithoutConfirmedSession :
    sfind (runEvents [phoneMsgEvent]).user_sessions "u2"
      = some ⟨false, some ("254712345678".toList), none⟩
    ∧ isPaymentConfirmation ("yes".toList) = true
    ∧ (processMessage (runEvents [phoneMsgEvent]) "yes" "u2"
        ⟨[payToolCall "254712345678" 100], Except.ok "done"⟩).calls
      = [⟨"254712345678".toList, 100⟩]
    ∧ sfind (processMessage (runEvents [phoneMsgEvent]) "yes" "u2"
        ⟨[payToolCall "254712345678" 100], Except.ok "done"⟩).state.user_sessions "u2"
      = some ⟨false, some ("254712345678".toList), none⟩ := by
  decide

/-- C3: evaluation of the code at the failing input.  Two
`mpesa_till_payment` invocations in the same turn, with no resolution in
between, both reach the gateway and both report success: nothing tracks an
in-flight transaction and no second request is ever rejected, contrary to
the claim. -/
theorem noSingleInflightEnforcement :
    (processMessage ⟨[]⟩ "yes pay now" "u3"
      ⟨[payToolCall "254700000001" 10, payToolCall "254700000002" 20],
        Except.ok "double"⟩).calls
      = [⟨"254700000001".toList, 10⟩, ⟨"254700000002".toList, 20⟩]
    ∧ (processMessage ⟨[]⟩ "yes pay now" "u3"
      ⟨[payToolCall "254700000001" 10, payToolCall "254700000002" 20],
        Except.ok "double"⟩).toolRuns.map (fun r => r.success) = [true, true] := by
  decide

/-- C4 counterexample: the input `abc` is not reducible to `254` plus nine
digits, yet it is passed onward to the gateway unchanged (and the gateway
call even reports success) — there is no `InvalidPhoneError` rejection. -/
theorem invalidPhonePassedToGateway :
    (mpesaTillRun ("abc".toList) 50 okCb).1 = [⟨"abc".toList, 50⟩]
    ∧ (mpesaTillRun ("abc".toList) 50 okCb).2.success = true := by
  decide

/-- C4 amended: the formatting applied by `MpesaTillTool._run` strips a
leading `+` (then continues on the remainder), replaces a leading `0` by
`254`, and passes every other input through unchanged; no 9-digit
prefixing and no rejection occurs. -/
theorem phoneFormatRules : ∀ p : List Char,
    (p.head? ≠ some '+' → formatPhoneL ('+' :: p) = formatPhoneL p)
    ∧ formatPhoneL ('0' :: p) = '2' :: '5' :: '4' :: p
    ∧ (p.head? ≠ some '+' → p.head? ≠ some '0' → formatPhoneL p = p) := by
  intro p
  exact ⟨fun h => formatPhoneL_cons_plus h, formatPhoneL_cons_zero p,
         fun h1 h2 => formatPhoneL_no_prefix h1 h2⟩

/-- C4 witness: the amended rules applied at concrete inputs. -/
theorem phoneFormatRules_witness :
    formatPhoneL ('+' :: ("254712345678".toList)) = formatPhoneL ("254712345678".toList)
    ∧ formatPhoneL ('0' :: ("712345678".toList)) = '2' :: '5' :: '4' :: ("712345678".toList)
    ∧ formatPhoneL ("254700111222".toList) = "254700111222".toList :=
  ⟨(phoneFormatRules ("254712345678".toList)).1 (by decide),
   (phoneFormatRules ("712345678".toList)).2.1,
   (phoneFormatRules ("254700111222".toList)).2.2 (by decide) (by decide)⟩

/-- C5: for a dict-shaped initiation response obtained from the client,
`MpesaTillTool._run` reports `success = true` iff some field has a name
whose lowercase ends in `code` and a value equal to the string `"0"` or the
number `0`; a non-dict response always yields `success = false`. -/
theorem initSuccessIffZeroCode :
    ∀ (f : JDict) (cb cb2 : ClientBehavior) (phone : List Char) (amt : Int),
    (cb.std = Except.ok (JResponse.dict f) →
      ((mpesaTillRun phone amt cb).2.success = true
        ↔ ∃ p ∈ f, (endsCodeKey p.1 && isZero p.2) = true))
    ∧ (cb2.std = Except.ok JResponse.other →
      (mpesaTillRun phone amt cb2).2.success = false) := by
  intro f cb cb2 phone amt
  constructor
  · intro h
    rw [mpesaTillRun_success_of_std h]
    exact parseInit_dict_iff f
  · intro h
    rw [mpesaTillRun_success_of_std h]
    rfl

/-- C5 witness: a `ResponseCode = "0"` dict yields success; a non-dict
response yields failure. -/
theorem initSuccessIffZeroCode_witness :
    (mpesaTillRun ("0712345678".toList) 100 okCb).2.success = true
    ∧ (mpesaTillRun ("0712345678".toList) 100 otherCb).2.success = false :=
  ⟨((initSuccessIffZeroCode okResp okCb otherCb ("0712345678".toList) 100).1 rfl).mpr
      ⟨("ResponseCode", JVal.str "0"), by decide, by decide⟩,
   (initSuccessIffZeroCode okResp okCb otherCb ("0712345678".toList) 100).2 rfl⟩

/-- C6: invoking the transaction-status operation with neither a
transaction id nor an originator conversation id returns the
no-active-transaction outcome (the returned string
`Error: Either transaction_id or originator_conversation_id must be provided.`)
for every client behaviour, without the client ever being called; the
operation is total, all exception paths being returned values. -/
theorem statusNoIdsReturnsNoActiveTransaction :
    ∀ cb : Except String JDict,
    transactionStatusRun (some ⟨none, none⟩) cb = StatusOut.missingIds := by
  intro cb
  rfl

/-- C7: `MpesaTillTool._run` and `ChatAgent.process_message` never let an
exception escape: for every input and every client/executor behaviour the
escaping result is a normal return, and in the worst cases — all three
client call attempts raising, or the executor raising — the original
exception is converted into a returned failure value or the apology
message. -/
theorem runAndProcessNeverThrow :
    ∀ (phone : List Char) (amt : Int) (cb : ClientBehavior) (st : AgentState)
      (m uid : String) (eb : ExecBehavior) (e1 e2 e3 ee : String) (steps : List ToolCall),
    exOk (mpesaTillRunX phone amt cb) = true
    ∧ exOk (processMessageX st m uid eb) = true
    ∧ (mpesaTillRun phone amt ⟨Except.error e1, Except.error e2, Except.error e3⟩).2
        = ⟨false, RunMsg.errorInitiating e1, none⟩
    ∧ (processMessage st m uid ⟨steps, Except.error ee⟩).output = apologyMsg := by
  intro phone amt cb st m uid eb e1 e2 e3 ee steps
  refine ⟨?_, ?_, ?_, ?_⟩
  · rcases hx : mpesaTillRunRaw phone amt cb with ⟨calls, exc⟩
    unfold mpesaTillRunX
    rw [hx]
    cases exc <;> rfl
  · rcases eb with ⟨ss, oc⟩
    cases oc <;> rfl
  · rfl
  · rfl

/-- C8 counterexample: for the valid 9-digit subscriber number `712345678`,
the formatting of the bare number is NOT `254712345678` — the bare form is
passed through without the `254` prefix. -/
theorem bareSubscriberNotPrefixed :
    ¬ formatPhoneL ("712345678".toList) = "254712345678".toList := by
  decide

/-- C8 amended: for every valid 9-digit subscriber number `n` (all digits,
starting with `7` or `1`), formatting `"0" + n` yields `"254" + n`, but
formatting the bare `n` yields `n` itself, unprefixed. -/
theorem normalizationZeroVsBare : ∀ n : List Char,
    n.length = 9 → (∀ c ∈ n, c.isDigit = true) →
    (n.head? = some '7' ∨ n.head? = some '1') →
    formatPhoneL ('0' :: n) = '2' :: '5' :: '4' :: n ∧ formatPhoneL n = n := by
  intro n hlen hdig hh
  have h1 : n.head? ≠ some '+' := by
    rcases hh with h | h
    · rw [h]; decide
    · rw [h]; decide
  have h2 : n.head? ≠ some '0' := by
    rcases hh with h | h
    · rw [h]; decide
    · rw [h]; decide
  exact ⟨formatPhoneL_cons_zero n, formatPhoneL_no_prefix h1 h2⟩

/-- C8 witness: the amended relation evaluated at `712345678`. -/
theorem normalizationZeroVsBare_witness :
    formatPhoneL ('0' :: ("712345678".toList)) = '2' :: '5' :: '4' :: ("712345678".toList)
    ∧ formatPhoneL ("712345678".toList) = "712345678".toList :=
  normalizationZeroVsBare ("712345678".toList) (by decide) (by decide) (by decide)

/-- C9: in every agent state reachable by any sequence of
`process_message` and `clear_user_memory` events, every stored session has
`pending_payment = None` and `payment_confirmed = False`: `pending_payment`
is initialized to `None` and never written, so the confirmation branch can
never fire. -/
theorem sessionsPendingNoneConfirmedFalse :
    ∀ (evs : List AgentEvent) (uid : String) (s : Session),
    sfind (runEvents evs).user_sessions uid = some s →
    s.pending_payment = none ∧ s.payment_confirmed = false := by
  intro evs uid s h
  have h0 : cleanSessions (AgentState.mk []).user_sessions :=
    fun p hp => absurd hp (List.not_mem_nil p)
  exact clean_foldl evs ⟨[]⟩ h0 (uid, s) (sfind_mem h)

/-- C9 witness: the invariant applied to the state after one message. -/
theorem sessionsPendingNoneConfirmedFalse_witness :
    sfind (runEvents [AgentEvent.msg "u1" "hello" ⟨[], Except.ok "hi"⟩]).user_sessions "u1"
      = some defaultSession
    ∧ defaultSession.pending_payment = none ∧ defaultSession.payment_confirmed = false :=
  ⟨by decide,
   sessionsPendingNoneConfirmedFalse [AgentEvent.msg "u1" "hello" ⟨[], Except.ok "hi"⟩]
     "u1" defaultSession (by decide)⟩

/-- C10 counterexample: `authorize` is one of the claimed substrings (it
trivially contains itself), yet `_is_payment_confirmation` returns False on
the message `authorize` — its phrase list does not include `authorize`. -/
theorem authorizeNotConfirmation :
    containsSub (lowerL ("authorize".toList)) ("authorize".toList) = true
    ∧ isPaymentConfirmation ("authorize".toList) = false := by
  decide

/-- C10 amended: any message whose lowercase form contains one of
`confirm`, `proceed`, `pay`, `yes`, `go ahead` (including negations and
incidental occurrences) makes `_is_payment_confirmation` return True and
makes the keyword check of `_check_and_block_payments` treat it as
authorizing; a message containing `authorize` is treated as authorizing by
the keyword check, though `_is_payment_confirmation` need not accept it. -/
theorem confirmationKeywordsBehavior : ∀ m : List Char,
    ((containsSub (lowerL m) ("confirm".toList) = true
      ∨ containsSub (lowerL m) ("proceed".toList) = true
      ∨ containsSub (lowerL m) ("pay".toList) = true
      ∨ containsSub (lowerL m) ("yes".toList) = true
      ∨ containsSub (lowerL m) ("go ahead".toList) = true) →
      isPaymentConfirmation m = true ∧ keywordAuthorized m = true)
    ∧ (containsSub (lowerL m) ("authorize".toList) = true → keywordAuthorized m = true) := by
  intro m
  refine ⟨fun h => ⟨?_, ?_⟩, fun h => ?_⟩
  · show confirmationPhrases.any (fun p => containsSub (lowerL m) p.toList) = true
    apply List.any_eq_true.mpr
    rcases h with h | h | h | h | h
    · exact ⟨"confirm", by decide, h⟩
    · exact ⟨"proceed", by decide, h⟩
    · exact ⟨"pay", by decide, h⟩
    · exact ⟨"yes", by decide, h⟩
    · exact ⟨"go ahead", by decide, h⟩
  · show paymentKeywords.any (fun k => containsSub (lowerL m) k.toList) = true
    apply List.any_eq_true.mpr
    rcases h with h | h | h | h | h
    · exact ⟨"confirm", by decide, h⟩
    · exact ⟨"proceed", by decide, h⟩
    · exact ⟨"pay", by decide, h⟩
    · exact ⟨"yes", by decide, h⟩
    · exact ⟨"go ahead", by decide, h⟩
  · show paymentKeywords.any (fun k => containsSub (lowerL m) k.toList) = true
    exact List.any_eq_true.mpr ⟨"authorize", by decide, h⟩

/-- C10 witness: `yesterday` (contains `yes`) is accepted by both checks;
`please authorize it` passes the keyword check. -/
theorem confirmationKeywordsBehavior_witness :
    (isPaymentConfirmation ("yesterday".toList) = true
      ∧ keywordAuthorized ("yesterday".toList) = true)
    ∧ keywordAuthorized ("please authorize it".toList) = true :=
  ⟨(confirmationKeywordsBehavior ("yesterday".toList)).1
      (Or.inr (Or.inr (Or.inr (Or.inl (by decide))))),
   (confirmationKeywordsBehavior ("please authorize it".toList)).2 (by decide)⟩
